import Mathlib

/-!
# Verification of the Bitcoin transaction decoder (btc_parse_tutor-rust)

Shallow embedding of `src/main.rs`.  The abstract byte source (`R: Read` in
the Rust code) is modelled as a `List Nat` of bytes consumed front to back;
each decoder returns `Except Err (value × remaining bytes)`.  The two error
kinds of the Rust code, `io::ErrorKind::UnexpectedEof` (raised by
`read_exact` and the `byteorder` fixed-width readers on short input) and
`io::ErrorKind::InvalidData` (raised explicitly by the bound checks), become
the two constructors of `Err`.  Machine integers are `Nat`: every decoded
value is produced from at most 8 bytes, so no overflow arises and widening
(`Into::into`) is the identity.
-/

/-- The two `io::ErrorKind`s the decoder can produce: `UnexpectedEof`
(truncated input) and `InvalidData` (a declared length or count exceeded its
defensive bound). -/
inductive Err where
  | unexpectedEof
  | invalidData
deriving DecidableEq, Repr

/-- `byteorder`'s `read_u8`: consume one byte, `UnexpectedEof` on empty
source. -/
def read_u8 (r : List Nat) : Except Err (Nat × List Nat) :=
  match r with
  | [] => Except.error Err.unexpectedEof
  | b :: rest => Except.ok (b, rest)

/-- Little-endian value of a byte list (first byte least significant),
as computed by `byteorder::LE`. -/
def leVal (bs : List Nat) : Nat := bs.foldr (fun b acc => b + 256 * acc) 0

/-- `byteorder`'s `read_u16::<LE>` / `read_u32::<LE>` / `read_u64::<LE>`
(`n` = 2, 4, 8): `read_exact` of `n` bytes then little-endian assembly;
`UnexpectedEof` when fewer than `n` bytes remain. -/
def read_uLE (n : Nat) (r : List Nat) : Except Err (Nat × List Nat) :=
  if n ≤ r.length then Except.ok (leVal (r.take n), r.drop n)
  else Except.error Err.unexpectedEof

/-- `deserialize_varint` (src/main.rs lines 8-15): read one byte; 253
selects a 2-byte little-endian payload, 254 a 4-byte one, 255 an 8-byte one,
and any other value is itself the result. -/
def deserialize_varint (r : List Nat) : Except Err (Nat × List Nat) := do
  let (b, r) ← read_u8 r
  if b = 253 then read_uLE 2 r
  else if b = 254 then read_uLE 4 r
  else if b = 255 then read_uLE 8 r
  else pure (b, r)

/-- `struct Script(Vec<u8>)`. -/
structure Script where
  data : List Nat
deriving DecidableEq, Repr

/-- `Script::deserialize` (src/main.rs lines 22-35): VarInt length, bound
check `len > 10_000 → InvalidData`, then `io::copy` from
`reader.by_ref().take(len)`, which copies `min(len, available)` bytes and
reports no error when the source ends early — modelled exactly by
`List.take`/`List.drop`, which also stop at the end of the list. -/
def Script.deserialize (r : List Nat) : Except Err (Script × List Nat) := do
  let (len, r) ← deserialize_varint r
  if 10000 < len then Except.error Err.invalidData
  else Except.ok (⟨r.take len⟩, r.drop len)

/-- `struct Hash256([u8; 32])`. -/
structure Hash256 where
  data : List Nat
deriving DecidableEq, Repr

/-- `Hash256::deserialize` (src/main.rs lines 43-48): `read_exact` of
32 bytes; `UnexpectedEof` when fewer remain. -/
def Hash256.deserialize (r : List Nat) : Except Err (Hash256 × List Nat) :=
  if 32 ≤ r.length then Except.ok (⟨r.take 32⟩, r.drop 32)
  else Except.error Err.unexpectedEof

/-- `struct Outpoint { txid: Hash256, index: u32 }`. -/
structure Outpoint where
  txid : Hash256
  index : Nat
deriving DecidableEq, Repr

/-- `Outpoint::deserialize` (src/main.rs lines 61-69). -/
def Outpoint.deserialize (r : List Nat) : Except Err (Outpoint × List Nat) := do
  let (txid, r) ← Hash256.deserialize r
  let (index, r) ← read_uLE 4 r
  Except.ok ({ txid, index }, r)

/-- `struct TxInput { outpoint, sig_script, sequence }`. -/
structure TxInput where
  outpoint : Outpoint
  sig_script : Script
  sequence : Nat
deriving DecidableEq, Repr

/-- `TxInput::deserialize` (src/main.rs lines 81-91). -/
def TxInput.deserialize (r : List Nat) : Except Err (TxInput × List Nat) := do
  let (outpoint, r) ← Outpoint.deserialize r
  let (sig_script, r) ← Script.deserialize r
  let (sequence, r) ← read_uLE 4 r
  Except.ok ({ outpoint, sig_script, sequence }, r)

/-- `struct TxOutput { satoshis, verify_script }`. -/
structure TxOutput where
  satoshis : Nat
  verify_script : Script
deriving DecidableEq, Repr

/-- `TxOutput::deserialize` (src/main.rs lines 102-110). -/
def TxOutput.deserialize (r : List Nat) : Except Err (TxOutput × List Nat) := do
  let (satoshis, r) ← read_uLE 8 r
  let (verify_script, r) ← Script.deserialize r
  Except.ok ({ satoshis, verify_script }, r)

/-- The `for _ in 0..count { vec.push(dec(reader)?) }` loops of
`Transaction::deserialize`: decode `n` elements in order, aborting on the
first error. -/
def decodeN (dec : List Nat → Except Err (α × List Nat)) :
    Nat → List Nat → Except Err (List α × List Nat)
  | 0, r => Except.ok ([], r)
  | n + 1, r => do
    let (x, r) ← dec r
    let (xs, r) ← decodeN dec n r
    Except.ok (x :: xs, r)

/-- `struct Transaction { version, inputs, outputs, lock_time }`. -/
structure Transaction where
  version : Nat
  inputs : List TxInput
  outputs : List TxOutput
  lock_time : Nat
deriving DecidableEq, Repr

/-- `Transaction::deserialize` (src/main.rs lines 122-155): version, input
count (bound 1,000,000), inputs, output count (same bound), outputs,
lock_time. -/
def Transaction.deserialize (r : List Nat) :
    Except Err (Transaction × List Nat) := do
  let (version, r) ← read_uLE 4 r
  let (input_count, r) ← deserialize_varint r
  if 1000000 < input_count then Except.error Err.invalidData
  else do
    let (inputs, r) ← decodeN TxInput.deserialize input_count r
    let (output_count, r) ← deserialize_varint r
    if 1000000 < output_count then Except.error Err.invalidData
    else do
      let (outputs, r) ← decodeN TxOutput.deserialize output_count r
      let (lock_time, r) ← read_uLE 4 r
      Except.ok ({ version, inputs, outputs, lock_time }, r)

/-!
## The VarInt wire format as described by the spec

`encode_varint` follows the spec's wire-format description (§6): values
0-252 occupy one byte; larger values take a 253/254/255 prefix followed by
2/4/8 little-endian payload bytes.  It is the spec-side counterpart used to
state the round-trip property; the source contains no encoder.
-/

/-- Little-endian byte encoding of `v` on `n` bytes, first byte least
significant. -/
def leBytes : Nat → Nat → List Nat
  | 0, _ => []
  | n + 1, v => v % 256 :: leBytes n (v / 256)

/-- Encoding of a 64-bit value per the Bitcoin VarInt wire format. -/
def encode_varint (v : Nat) : List Nat :=
  if v ≤ 252 then [v]
  else if v < 2 ^ 16 then 253 :: leBytes 2 v
  else if v < 2 ^ 32 then 254 :: leBytes 4 v
  else 255 :: leBytes 8 v

lemma leBytes_length (n v : Nat) : (leBytes n v).length = n := by
  induction n generalizing v with
  | zero => rfl
  | succ k ih => simp [leBytes, ih]

lemma leVal_leBytes (n v : Nat) : leVal (leBytes n v) = v % 256 ^ n := by
  induction n generalizing v with
  | zero => simp [leBytes, leVal, Nat.mod_one]
  | succ k ih =>
    simp only [leBytes, leVal, List.foldr] at *
    rw [ih (v / 256), Nat.pow_succ, Nat.mul_comm (256 ^ k) 256, Nat.mod_mul]

/-- Reading `n` little-endian bytes back off `leBytes n v ++ rest`. -/
lemma read_uLE_leBytes (n v : Nat) (rest : List Nat) :
    read_uLE n (leBytes n v ++ rest) = Except.ok (v % 256 ^ n, rest) := by
  have hlen : (leBytes n v).length = n := leBytes_length n v
  rw [read_uLE, if_pos]
  · rw [List.take_left' hlen, List.drop_left' hlen, leVal_leBytes]
  · rw [List.length_append, hlen]; omega

/-- Unfolding `deserialize_varint` on a cons cell. -/
lemma deserialize_varint_cons (b : Nat) (rest : List Nat) :
    deserialize_varint (b :: rest) =
      if b = 253 then read_uLE 2 rest
      else if b = 254 then read_uLE 4 rest
      else if b = 255 then read_uLE 8 rest
      else Except.ok (b, rest) := rfl

lemma deserialize_varint_nil :
    deserialize_varint [] = Except.error Err.unexpectedEof := rfl

/-- Decode inverts encode for every value below `2 ^ 64`, with the remainder
of the source untouched. -/
lemma varint_roundtrip_aux (v : Nat) (rest : List Nat) (hv : v < 2 ^ 64) :
    deserialize_varint (encode_varint v ++ rest) = Except.ok (v, rest) := by
  rw [encode_varint]
  by_cases h1 : v ≤ 252
  · rw [if_pos h1]
    simp only [List.cons_append, List.nil_append, deserialize_varint_cons]
    rw [if_neg (by omega), if_neg (by omega), if_neg (by omega)]
  · rw [if_neg h1]
    by_cases h2 : v < 2 ^ 16
    · rw [if_pos h2]
      simp only [List.cons_append, deserialize_varint_cons]
      rw [if_true, read_uLE_leBytes, Nat.mod_eq_of_lt (by norm_num at h2 ⊢; omega)]
    · rw [if_neg h2]
      by_cases h3 : v < 2 ^ 32
      · rw [if_pos h3]
        simp only [List.cons_append, deserialize_varint_cons]
        rw [if_neg (by omega), if_true, read_uLE_leBytes,
          Nat.mod_eq_of_lt (by norm_num at h3 ⊢; omega)]
      · rw [if_neg h3]
        simp only [List.cons_append, deserialize_varint_cons]
        rw [if_neg (by omega), if_neg (by omega), if_true, read_uLE_leBytes,
          Nat.mod_eq_of_lt (by norm_num at hv ⊢; omega)]

lemma except_bind_ok (a : α) (f : α → Except Err β) :
    (Except.ok a >>= f) = f a := rfl

lemma except_bind_err (e : Err) (f : α → Except Err β) :
    ((Except.error e : Except Err α) >>= f) = Except.error e := rfl

lemma read_uLE_cons2 (b0 b1 : Nat) (rest : List Nat) :
    read_uLE 2 (b0 :: b1 :: rest) = Except.ok (b0 + 256 * b1, rest) := by
  rw [read_uLE, if_pos (by simp)]
  simp [leVal]

lemma read_uLE_cons4 (b0 b1 b2 b3 : Nat) (rest : List Nat) :
    read_uLE 4 (b0 :: b1 :: b2 :: b3 :: rest) =
      Except.ok (b0 + 256 * (b1 + 256 * (b2 + 256 * b3)), rest) := by
  rw [read_uLE, if_pos (by simp)]
  simp [leVal]

lemma read_uLE_cons8 (b0 b1 b2 b3 b4 b5 b6 b7 : Nat) (rest : List Nat) :
    read_uLE 8 (b0 :: b1 :: b2 :: b3 :: b4 :: b5 :: b6 :: b7 :: rest) =
      Except.ok (b0 + 256 * (b1 + 256 * (b2 + 256 * (b3 + 256 * (b4 + 256 *
        (b5 + 256 * (b6 + 256 * b7)))))), rest) := by
  rw [read_uLE, if_pos (by simp)]
  simp [leVal]

/-- Claim C1: the spec demands that every fixed-width or length-prefixed
decode fail with a truncated-input error on short input.  `Hash256` honours
this (`read_exact` of 32 bytes), but `Script::deserialize` does not: its
body is read with `io::copy` from `reader.by_ref().take(len)`, which stops
at end-of-source without reporting an error, so a script declaring length 5
over a 2-byte source decodes successfully to a silently truncated 2-byte
script.  This theorem evaluates the code at that failing input. -/
theorem script_short_read_silently_truncates :
    Script.deserialize [5, 1, 2] = Except.ok (⟨[1, 2]⟩, [])
  ∧ Hash256.deserialize (List.replicate 31 0) = Except.error Err.unexpectedEof := by
  exact ⟨rfl, rfl⟩

/-- Claim C2: `deserialize_varint` reads one byte and dispatches on it:
bytes 0-252 are themselves the value; prefix 253 reads a 2-byte
little-endian payload, 254 a 4-byte one, 255 an 8-byte one (each widened to
64 bits, which over `Nat` is the identity); the non-canonical encoding
`253, 0x00, 0x00` decodes to 0; an empty source fails. -/
theorem varint_dispatch (b b0 b1 b2 b3 b4 b5 b6 b7 : Nat) (rest : List Nat)
    (hb : b < 253) :
    deserialize_varint [] = Except.error Err.unexpectedEof
  ∧ deserialize_varint (b :: rest) = Except.ok (b, rest)
  ∧ deserialize_varint (253 :: b0 :: b1 :: rest) = Except.ok (b0 + 256 * b1, rest)
  ∧ deserialize_varint (254 :: b0 :: b1 :: b2 :: b3 :: rest) =
      Except.ok (b0 + 256 * (b1 + 256 * (b2 + 256 * b3)), rest)
  ∧ deserialize_varint (255 :: b0 :: b1 :: b2 :: b3 :: b4 :: b5 :: b6 :: b7 :: rest) =
      Except.ok (b0 + 256 * (b1 + 256 * (b2 + 256 * (b3 + 256 * (b4 + 256 *
        (b5 + 256 * (b6 + 256 * b7)))))), rest)
  ∧ deserialize_varint (253 :: 0 :: 0 :: rest) = Except.ok (0, rest) := by
  refine ⟨rfl, ?_, ?_, ?_, ?_, ?_⟩
  · rw [deserialize_varint_cons, if_neg (by omega), if_neg (by omega),
      if_neg (by omega)]
  · rw [deserialize_varint_cons, if_pos rfl, read_uLE_cons2]
  · rw [deserialize_varint_cons, if_neg (by omega), if_pos rfl, read_uLE_cons4]
  · rw [deserialize_varint_cons, if_neg (by omega), if_neg (by omega),
      if_pos rfl, read_uLE_cons8]
  · rw [deserialize_varint_cons, if_pos rfl, read_uLE_cons2]

/-- Witness for claim C2, at byte 7 and payload bytes 1, 2, 3, 4, 5, 6, 7, 8
with an empty remainder. -/
theorem varint_dispatch_witness :
    deserialize_varint [] = Except.error Err.unexpectedEof
  ∧ deserialize_varint [7] = Except.ok (7, [])
  ∧ deserialize_varint [253, 1, 2] = Except.ok (1 + 256 * 2, [])
  ∧ deserialize_varint [254, 1, 2, 3, 4] =
      Except.ok (1 + 256 * (2 + 256 * (3 + 256 * 4)), [])
  ∧ deserialize_varint [255, 1, 2, 3, 4, 5, 6, 7, 8] =
      Except.ok (1 + 256 * (2 + 256 * (3 + 256 * (4 + 256 * (5 + 256 *
        (6 + 256 * (7 + 256 * 8)))))), [])
  ∧ deserialize_varint [253, 0, 0] = Except.ok (0, []) :=
  varint_dispatch 7 1 2 3 4 5 6 7 8 [] (by omega)

/-- Claim C3: encoding any 64-bit value per the Bitcoin VarInt wire format
(one byte for 0-252, a 253-prefixed 3-byte form, a 254-prefixed 5-byte form,
or a 255-prefixed 9-byte form) and decoding with `deserialize_varint`
recovers the value exactly, leaving the remainder of the source intact; the
single statement covers all four encoding-length regimes since
`encode_varint` selects the regime from the value. -/
theorem varint_roundtrip (v : Nat) (rest : List Nat) (hv : v < 2 ^ 64) :
    deserialize_varint (encode_varint v ++ rest) = Except.ok (v, rest) :=
  varint_roundtrip_aux v rest hv

/-- Witness for claim C3: one concrete value in each of the four regimes. -/
theorem varint_roundtrip_witness :
    deserialize_varint (encode_varint 252 ++ [9]) = Except.ok (252, [9])
  ∧ deserialize_varint (encode_varint 10000 ++ [9]) = Except.ok (10000, [9])
  ∧ deserialize_varint (encode_varint 70000 ++ [9]) = Except.ok (70000, [9])
  ∧ deserialize_varint (encode_varint 5000000000 ++ [9]) =
      Except.ok (5000000000, [9]) :=
  ⟨varint_roundtrip 252 [9] (by norm_num),
   varint_roundtrip 10000 [9] (by norm_num),
   varint_roundtrip 70000 [9] (by norm_num),
   varint_roundtrip 5000000000 [9] (by norm_num)⟩

lemma Script.deserialize_varint_ok (r tail : List Nat) (len : Nat)
    (h : deserialize_varint r = Except.ok (len, tail)) :
    Script.deserialize r =
      if 10000 < len then Except.error Err.invalidData
      else Except.ok (⟨tail.take len⟩, tail.drop len) := by
  unfold Script.deserialize
  rw [h]
  rfl

lemma Script.deserialize_varint_err (r : List Nat) (e : Err)
    (h : deserialize_varint r = Except.error e) :
    Script.deserialize r = Except.error e := by
  unfold Script.deserialize
  rw [h]
  rfl

/-- Claim C4: a Script with declared length exactly 10,000 decodes
successfully when 10,000 body bytes are available, and any declared length
strictly above 10,000 yields `InvalidData` straight from the VarInt prefix,
whatever (even nothing) follows it — no body byte is consumed. -/
theorem script_length_boundary (r body extra tail : List Nat) (len : Nat) :
    (body.length = 10000 →
      Script.deserialize (encode_varint 10000 ++ (body ++ extra)) =
        Except.ok (⟨body⟩, extra))
  ∧ (10000 < len → deserialize_varint r = Except.ok (len, tail) →
      Script.deserialize r = Except.error Err.invalidData) := by
  constructor
  · intro hbody
    rw [Script.deserialize_varint_ok _ _ _
        (varint_roundtrip_aux 10000 (body ++ extra) (by norm_num)),
      if_neg (by omega), List.take_left' hbody, List.drop_left' hbody]
  · intro h1 h2
    rw [Script.deserialize_varint_ok _ _ _ h2, if_pos h1]

/-- Witness for claim C4: a full 10,000-byte body behind the length prefix
`253, 16, 39` decodes whole; the prefix `253, 17, 39` (declared length
10,001) with an empty remainder fails with `InvalidData`. -/
theorem script_length_boundary_witness :
    Script.deserialize (encode_varint 10000 ++ (List.replicate 10000 7 ++ [9])) =
      Except.ok (⟨List.replicate 10000 7⟩, [9])
  ∧ Script.deserialize [253, 17, 39] = Except.error Err.invalidData :=
  ⟨(script_length_boundary [253, 17, 39] (List.replicate 10000 7) [9] [] 10001).1
      (List.length_replicate 10000 7),
   (script_length_boundary [253, 17, 39] (List.replicate 10000 7) [9] [] 10001).2
      (by omega) rfl⟩

lemma read_uLE_error (n : Nat) (r : List Nat) (e : Err)
    (h : read_uLE n r = Except.error e) : e = Err.unexpectedEof := by
  rw [read_uLE] at h
  by_cases hle : n ≤ r.length
  · rw [if_pos hle] at h
    exact Except.noConfusion h
  · rw [if_neg hle] at h
    injection h with h1
    exact h1.symm

/-- Little-endian assembly of a byte list stays below `256 ^ length`. -/
lemma leVal_lt (bs : List Nat) (h : ∀ x ∈ bs, x < 256) :
    leVal bs < 256 ^ bs.length := by
  induction bs with
  | nil => simp [leVal]
  | cons b rest ih =>
    have hb : b < 256 := h b (by simp)
    have hr : leVal rest < 256 ^ rest.length :=
      ih (fun x hx => h x (List.mem_cons_of_mem b hx))
    simp only [leVal, List.foldr, List.length_cons] at *
    calc b + 256 * (rest.foldr (fun b acc => b + 256 * acc) 0) <
        256 * (rest.foldr (fun b acc => b + 256 * acc) 0 + 1) := by omega
      _ ≤ 256 * 256 ^ rest.length := Nat.mul_le_mul_left 256 (by omega)
      _ = 256 ^ (rest.length + 1) := by rw [Nat.pow_succ, Nat.mul_comm]

/-- At most eight little-endian bytes assemble to a value below `2 ^ 64`. -/
lemma leVal_take_lt64 (l : List Nat) (n : Nat) (hn : n ≤ 8)
    (h : ∀ x ∈ l, x < 256) : leVal (l.take n) < 2 ^ 64 := by
  have h1 : leVal (l.take n) < 256 ^ (l.take n).length :=
    leVal_lt _ (fun x hx => h x (List.take_subset n l hx))
  have h2 : (l.take n).length ≤ 8 := by rw [List.length_take]; omega
  calc leVal (l.take n) < 256 ^ (l.take n).length := h1
    _ ≤ 256 ^ 8 := Nat.pow_le_pow_right (by norm_num) h2
    _ = 2 ^ 64 := by norm_num

/-- Claim C10: `deserialize_varint` can only fail for lack of bytes — every
error it returns is `UnexpectedEof`, never `InvalidData` — and whenever the
source opens with a byte and carries the 2, 4, or 8 payload bytes a
253/254/255 prefix demands (nothing extra for 0-252), it succeeds with some
value below `2 ^ 64`, whatever the byte pattern is. -/
theorem varint_total (r : List Nat) (hbytes : ∀ x ∈ r, x < 256) :
    (∀ e, deserialize_varint r = Except.error e → e = Err.unexpectedEof)
  ∧ (∀ b rest, r = b :: rest →
      (b = 253 → 2 ≤ rest.length) →
      (b = 254 → 4 ≤ rest.length) →
      (b = 255 → 8 ≤ rest.length) →
      ∃ v tail, deserialize_varint r = Except.ok (v, tail) ∧ v < 2 ^ 64) := by
  constructor
  · intro e he
    cases r with
    | nil =>
      rw [deserialize_varint_nil] at he
      injection he with h1
      exact h1.symm
    | cons b rest =>
      rw [deserialize_varint_cons] at he
      by_cases h1 : b = 253
      · rw [if_pos h1] at he
        exact read_uLE_error _ _ _ he
      · rw [if_neg h1] at he
        by_cases h2 : b = 254
        · rw [if_pos h2] at he
          exact read_uLE_error _ _ _ he
        · rw [if_neg h2] at he
          by_cases h3 : b = 255
          · rw [if_pos h3] at he
            exact read_uLE_error _ _ _ he
          · rw [if_neg h3] at he
            exact Except.noConfusion he
  · intro b rest hr h253 h254 h255
    subst hr
    have hb : b < 256 := hbytes b (by simp)
    have hrest : ∀ x ∈ rest, x < 256 :=
      fun x hx => hbytes x (List.mem_cons_of_mem b hx)
    rw [deserialize_varint_cons]
    by_cases h1 : b = 253
    · rw [if_pos h1, read_uLE, if_pos (h253 h1)]
      exact ⟨_, _, rfl, leVal_take_lt64 rest 2 (by norm_num) hrest⟩
    · rw [if_neg h1]
      by_cases h2 : b = 254
      · rw [if_pos h2, read_uLE, if_pos (h254 h2)]
        exact ⟨_, _, rfl, leVal_take_lt64 rest 4 (by norm_num) hrest⟩
      · rw [if_neg h2]
        by_cases h3 : b = 255
        · rw [if_pos h3, read_uLE, if_pos (h255 h3)]
          exact ⟨_, _, rfl, leVal_take_lt64 rest 8 (by norm_num) hrest⟩
        · rw [if_neg h3]
          exact ⟨b, rest, rfl, lt_of_lt_of_le hb (by norm_num)⟩

/-- Witness for claim C10: the 253-prefixed source `253, 7, 1` carries its
two payload bytes and decodes successfully. -/
theorem varint_total_witness :
    ∃ v tail, deserialize_varint [253, 7, 1] = Except.ok (v, tail) ∧ v < 2 ^ 64 :=
  (varint_total [253, 7, 1] (by decide)).2 253 [7, 1] rfl
    (fun _ => by decide) (fun h => absurd h (by decide)) (fun h => absurd h (by decide))

/-!
## Stage lemmas for `Transaction::deserialize`

One conditional unfolding lemma per step of the linear pipeline
version → input count → inputs → output count → outputs → lock_time:
each says what the whole decode returns once the outcomes of the steps up
to that point are known.
-/

lemma tx_version_err (r : List Nat) (e : Err)
    (h : read_uLE 4 r = Except.error e) :
    Transaction.deserialize r = Except.error e := by
  unfold Transaction.deserialize
  simp only [h, except_bind_err]

lemma tx_input_count_err (r r1 : List Nat) (v : Nat) (e : Err)
    (h1 : read_uLE 4 r = Except.ok (v, r1))
    (h2 : deserialize_varint r1 = Except.error e) :
    Transaction.deserialize r = Except.error e := by
  unfold Transaction.deserialize
  simp only [h1, except_bind_ok, h2, except_bind_err]

lemma tx_input_count_over (r r1 r2 : List Nat) (v ic : Nat)
    (h1 : read_uLE 4 r = Except.ok (v, r1))
    (h2 : deserialize_varint r1 = Except.ok (ic, r2))
    (hic : 1000000 < ic) :
    Transaction.deserialize r = Except.error Err.invalidData := by
  unfold Transaction.deserialize
  simp only [h1, except_bind_ok, h2, if_pos hic]

lemma tx_inputs_err (r r1 r2 : List Nat) (v ic : Nat) (e : Err)
    (h1 : read_uLE 4 r = Except.ok (v, r1))
    (h2 : deserialize_varint r1 = Except.ok (ic, r2))
    (hic : ic ≤ 1000000)
    (h3 : decodeN TxInput.deserialize ic r2 = Except.error e) :
    Transaction.deserialize r = Except.error e := by
  unfold Transaction.deserialize
  simp only [h1, except_bind_ok, h2, if_neg (by omega : ¬1000000 < ic), h3,
    except_bind_err]

lemma tx_output_count_err (r r1 r2 r3 : List Nat) (v ic : Nat)
    (ins : List TxInput) (e : Err)
    (h1 : read_uLE 4 r = Except.ok (v, r1))
    (h2 : deserialize_varint r1 = Except.ok (ic, r2))
    (hic : ic ≤ 1000000)
    (h3 : decodeN TxInput.deserialize ic r2 = Except.ok (ins, r3))
    (h4 : deserialize_varint r3 = Except.error e) :
    Transaction.deserialize r = Except.error e := by
  unfold Transaction.deserialize
  simp only [h1, except_bind_ok, h2, if_neg (by omega : ¬1000000 < ic), h3,
    h4, except_bind_err]

lemma tx_output_count_over (r r1 r2 r3 r4 : List Nat) (v ic oc : Nat)
    (ins : List TxInput)
    (h1 : read_uLE 4 r = Except.ok (v, r1))
    (h2 : deserialize_varint r1 = Except.ok (ic, r2))
    (hic : ic ≤ 1000000)
    (h3 : decodeN TxInput.deserialize ic r2 = Except.ok (ins, r3))
    (h4 : deserialize_varint r3 = Except.ok (oc, r4))
    (hoc : 1000000 < oc) :
    Transaction.deserialize r = Except.error Err.invalidData := by
  unfold Transaction.deserialize
  simp only [h1, except_bind_ok, h2, if_neg (by omega : ¬1000000 < ic), h3,
    h4, if_pos hoc]

lemma tx_outputs_err (r r1 r2 r3 r4 : List Nat) (v ic oc : Nat)
    (ins : List TxInput) (e : Err)
    (h1 : read_uLE 4 r = Except.ok (v, r1))
    (h2 : deserialize_varint r1 = Except.ok (ic, r2))
    (hic : ic ≤ 1000000)
    (h3 : decodeN TxInput.deserialize ic r2 = Except.ok (ins, r3))
    (h4 : deserialize_varint r3 = Except.ok (oc, r4))
    (hoc : oc ≤ 1000000)
    (h5 : decodeN TxOutput.deserialize oc r4 = Except.error e) :
    Transaction.deserialize r = Except.error e := by
  unfold Transaction.deserialize
  simp only [h1, except_bind_ok, h2, if_neg (by omega : ¬1000000 < ic), h3,
    h4, if_neg (by omega : ¬1000000 < oc), h5, except_bind_err]

lemma tx_lock_err (r r1 r2 r3 r4 r5 : List Nat) (v ic oc : Nat)
    (ins : List TxInput) (outs : List TxOutput) (e : Err)
    (h1 : read_uLE 4 r = Except.ok (v, r1))
    (h2 : deserialize_varint r1 = Except.ok (ic, r2))
    (hic : ic ≤ 1000000)
    (h3 : decodeN TxInput.deserialize ic r2 = Except.ok (ins, r3))
    (h4 : deserialize_varint r3 = Except.ok (oc, r4))
    (hoc : oc ≤ 1000000)
    (h5 : decodeN TxOutput.deserialize oc r4 = Except.ok (outs, r5))
    (h6 : read_uLE 4 r5 = Except.error e) :
    Transaction.deserialize r = Except.error e := by
  unfold Transaction.deserialize
  simp only [h1, except_bind_ok, h2, if_neg (by omega : ¬1000000 < ic), h3,
    h4, if_neg (by omega : ¬1000000 < oc), h5, h6, except_bind_err]

lemma tx_all_ok (r r1 r2 r3 r4 r5 r6 : List Nat) (v ic oc lt : Nat)
    (ins : List TxInput) (outs : List TxOutput)
    (h1 : read_uLE 4 r = Except.ok (v, r1))
    (h2 : deserialize_varint r1 = Except.ok (ic, r2))
    (hic : ic ≤ 1000000)
    (h3 : decodeN TxInput.deserialize ic r2 = Except.ok (ins, r3))
    (h4 : deserialize_varint r3 = Except.ok (oc, r4))
    (hoc : oc ≤ 1000000)
    (h5 : decodeN TxOutput.deserialize oc r4 = Except.ok (outs, r5))
    (h6 : read_uLE 4 r5 = Except.ok (lt, r6)) :
    Transaction.deserialize r =
      Except.ok ({ version := v, inputs := ins, outputs := outs,
                   lock_time := lt }, r6) := by
  unfold Transaction.deserialize
  simp only [h1, except_bind_ok, h2, if_neg (by omega : ¬1000000 < ic), h3,
    h4, if_neg (by omega : ¬1000000 < oc), h5, h6]

/-- Claim C5: after the version field, an input (or output) count of exactly
1,000,000 passes the bound check — decoding proceeds into the element loop
and, over an empty remainder, fails with the truncation error of the first
element, not with `InvalidData` — while any count strictly above 1,000,000
(here an arbitrary encodable one) fails with `InvalidData` at once, whatever
bytes follow the count, before any element is decoded. -/
theorem tx_count_boundary (c : Nat) (rest : List Nat) (hc : 1000000 < c)
    (hc64 : c < 2 ^ 64) :
    Transaction.deserialize ([0, 0, 0, 0] ++ (encode_varint c ++ rest)) =
      Except.error Err.invalidData
  ∧ Transaction.deserialize ([0, 0, 0, 0] ++ encode_varint 1000000) =
      Except.error Err.unexpectedEof
  ∧ Transaction.deserialize ([0, 0, 0, 0] ++ ([0] ++ (encode_varint c ++ rest))) =
      Except.error Err.invalidData
  ∧ Transaction.deserialize ([0, 0, 0, 0] ++ ([0] ++ encode_varint 1000000)) =
      Except.error Err.unexpectedEof := by
  have hver : ∀ x : List Nat, read_uLE 4 ([0, 0, 0, 0] ++ x) = Except.ok (0, x) := by
    intro x
    have h := read_uLE_cons4 0 0 0 0 x
    simpa using h
  refine ⟨?_, rfl, ?_, rfl⟩
  · exact tx_input_count_over _ _ rest 0 c (hver _)
      (varint_roundtrip_aux c rest hc64) hc
  · exact tx_output_count_over _ _ _ _ rest 0 0 c []
      (hver _) rfl (by omega) rfl (varint_roundtrip_aux c rest hc64) hc

/-- Witness for claim C5, at count 1,000,001 with an empty remainder. -/
theorem tx_count_boundary_witness :
    Transaction.deserialize ([0, 0, 0, 0] ++ (encode_varint 1000001 ++ [])) =
      Except.error Err.invalidData
  ∧ Transaction.deserialize ([0, 0, 0, 0] ++ encode_varint 1000000) =
      Except.error Err.unexpectedEof
  ∧ Transaction.deserialize ([0, 0, 0, 0] ++ ([0] ++ (encode_varint 1000001 ++ []))) =
      Except.error Err.invalidData
  ∧ Transaction.deserialize ([0, 0, 0, 0] ++ ([0] ++ encode_varint 1000000)) =
      Except.error Err.unexpectedEof :=
  tx_count_boundary 1000001 [] (by norm_num) (by norm_num)

/-- Claim C6: `Transaction::deserialize` is atomic and propagation
transparent.  In the `Except` model a decode returns either one complete
`Transaction` record or a single error, so no partial transaction is
observable by construction; the conjuncts below show that a failure of any
of the six pipeline steps (version, input count, an input, output count,
an output, lock_time) makes the whole decode return that first error
unchanged, and that when every step succeeds the result is the fully
assembled record. -/
theorem tx_atomic_propagation (r r1 r2 r3 r4 r5 r6 : List Nat) (e : Err)
    (v ic oc lt : Nat) (ins : List TxInput) (outs : List TxOutput) :
    (read_uLE 4 r = Except.error e →
      Transaction.deserialize r = Except.error e)
  ∧ (read_uLE 4 r = Except.ok (v, r1) →
      deserialize_varint r1 = Except.error e →
      Transaction.deserialize r = Except.error e)
  ∧ (read_uLE 4 r = Except.ok (v, r1) →
      deserialize_varint r1 = Except.ok (ic, r2) → ic ≤ 1000000 →
      decodeN TxInput.deserialize ic r2 = Except.error e →
      Transaction.deserialize r = Except.error e)
  ∧ (read_uLE 4 r = Except.ok (v, r1) →
      deserialize_varint r1 = Except.ok (ic, r2) → ic ≤ 1000000 →
      decodeN TxInput.deserialize ic r2 = Except.ok (ins, r3) →
      deserialize_varint r3 = Except.error e →
      Transaction.deserialize r = Except.error e)
  ∧ (read_uLE 4 r = Except.ok (v, r1) →
      deserialize_varint r1 = Except.ok (ic, r2) → ic ≤ 1000000 →
      decodeN TxInput.deserialize ic r2 = Except.ok (ins, r3) →
      deserialize_varint r3 = Except.ok (oc, r4) → oc ≤ 1000000 →
      decodeN TxOutput.deserialize oc r4 = Except.error e →
      Transaction.deserialize r = Except.error e)
  ∧ (read_uLE 4 r = Except.ok (v, r1) →
      deserialize_varint r1 = Except.ok (ic, r2) → ic ≤ 1000000 →
      decodeN TxInput.deserialize ic r2 = Except.ok (ins, r3) →
      deserialize_varint r3 = Except.ok (oc, r4) → oc ≤ 1000000 →
      decodeN TxOutput.deserialize oc r4 = Except.ok (outs, r5) →
      read_uLE 4 r5 = Except.error e →
      Transaction.deserialize r = Except.error e)
  ∧ (read_uLE 4 r = Except.ok (v, r1) →
      deserialize_varint r1 = Except.ok (ic, r2) → ic ≤ 1000000 →
      decodeN TxInput.deserialize ic r2 = Except.ok (ins, r3) →
      deserialize_varint r3 = Except.ok (oc, r4) → oc ≤ 1000000 →
      decodeN TxOutput.deserialize oc r4 = Except.ok (outs, r5) →
      read_uLE 4 r5 = Except.ok (lt, r6) →
      Transaction.deserialize r =
        Except.ok ({ version := v, inputs := ins, outputs := outs,
                     lock_time := lt }, r6)) :=
  ⟨fun h => tx_version_err r e h,
   fun h1 h2 => tx_input_count_err r r1 v e h1 h2,
   fun h1 h2 hic h3 => tx_inputs_err r r1 r2 v ic e h1 h2 hic h3,
   fun h1 h2 hic h3 h4 =>
     tx_output_count_err r r1 r2 r3 v ic ins e h1 h2 hic h3 h4,
   fun h1 h2 hic h3 h4 hoc h5 =>
     tx_outputs_err r r1 r2 r3 r4 v ic oc ins e h1 h2 hic h3 h4 hoc h5,
   fun h1 h2 hic h3 h4 hoc h5 h6 =>
     tx_lock_err r r1 r2 r3 r4 r5 v ic oc ins outs e h1 h2 hic h3 h4 hoc h5 h6,
   fun h1 h2 hic h3 h4 hoc h5 h6 =>
     tx_all_ok r r1 r2 r3 r4 r5 r6 v ic oc lt ins outs h1 h2 hic h3 h4 hoc h5 h6⟩

/-- Witness for claim C6: one concrete source per pipeline stage, each
truncated exactly at that stage, plus a complete empty transaction. -/
theorem tx_atomic_propagation_witness :
    Transaction.deserialize [] = Except.error Err.unexpectedEof
  ∧ Transaction.deserialize [0, 0, 0, 0] = Except.error Err.unexpectedEof
  ∧ Transaction.deserialize [0, 0, 0, 0, 1] = Except.error Err.unexpectedEof
  ∧ Transaction.deserialize [0, 0, 0, 0, 0] = Except.error Err.unexpectedEof
  ∧ Transaction.deserialize [0, 0, 0, 0, 0, 1] = Except.error Err.unexpectedEof
  ∧ Transaction.deserialize [0, 0, 0, 0, 0, 0] = Except.error Err.unexpectedEof
  ∧ Transaction.deserialize [0, 0, 0, 0, 0, 0, 0, 0, 0, 0] =
      Except.ok ({ version := 0, inputs := [], outputs := [],
                   lock_time := 0 }, []) :=
  ⟨(tx_atomic_propagation [] [] [] [] [] [] [] Err.unexpectedEof
      0 0 0 0 [] []).1 rfl,
   (tx_atomic_propagation [0, 0, 0, 0] [] [] [] [] [] [] Err.unexpectedEof
      0 0 0 0 [] []).2.1 rfl rfl,
   (tx_atomic_propagation [0, 0, 0, 0, 1] [1] [] [] [] [] [] Err.unexpectedEof
      0 1 0 0 [] []).2.2.1 rfl rfl (by omega) rfl,
   (tx_atomic_propagation [0, 0, 0, 0, 0] [0] [] [] [] [] [] Err.unexpectedEof
      0 0 0 0 [] []).2.2.2.1 rfl rfl (by omega) rfl rfl,
   (tx_atomic_propagation [0, 0, 0, 0, 0, 1] [0, 1] [1] [1] [] [] []
      Err.unexpectedEof 0 0 1 0 [] []).2.2.2.2.1
      rfl rfl (by omega) rfl rfl (by omega) rfl,
   (tx_atomic_propagation [0, 0, 0, 0, 0, 0] [0, 0] [0] [0] [] [] []
      Err.unexpectedEof 0 0 0 0 [] []).2.2.2.2.2.1
      rfl rfl (by omega) rfl rfl (by omega) rfl rfl,
   (tx_atomic_propagation [0, 0, 0, 0, 0, 0, 0, 0, 0, 0] [0, 0, 0, 0, 0, 0]
      [0, 0, 0, 0, 0] [0, 0, 0, 0, 0] [0, 0, 0, 0] [0, 0, 0, 0] []
      Err.unexpectedEof 0 0 0 0 [] []).2.2.2.2.2.2
      rfl rfl (by omega) rfl rfl (by omega) rfl rfl⟩

/-- The canonical single-input/single-output transaction byte sequence of
the spec (§8): version 1; one input with the 32-byte zero txid, index
`0xFFFFFFFF`, empty signature script, sequence `0xFFFFFFFF`; one output of
5,000,000,000 units with a 5-byte script; lock_time 0.  65 bytes total. -/
def canonicalTxBytes : List Nat :=
  [1, 0, 0, 0]
    ++ [1]
    ++ (List.replicate 32 0 ++ [255, 255, 255, 255] ++ [0] ++ [255, 255, 255, 255])
    ++ [1]
    ++ ([0, 242, 5, 42, 1, 0, 0, 0] ++ [5] ++ [1, 2, 3, 4, 5])
    ++ [0, 0, 0, 0]

/-- Claim C7: decoding the canonical single-input/single-output transaction
bytes succeeds, reproduces every field with exactly the prescribed values,
and consumes the whole 65-byte sequence — the remainder is empty. -/
theorem canonical_tx_decodes :
    Transaction.deserialize canonicalTxBytes =
      Except.ok
        ({ version := 1,
           inputs := [{ outpoint := { txid := ⟨List.replicate 32 0⟩,
                                      index := 4294967295 },
                        sig_script := ⟨[]⟩,
                        sequence := 4294967295 }],
           outputs := [{ satoshis := 5000000000,
                         verify_script := ⟨[1, 2, 3, 4, 5]⟩ }],
           lock_time := 0 }, []) := rfl

/-- Claim C8: decoding is deterministic.  The embedding is a pure function
of the byte list, mirroring the absence of any global or process-wide
mutable state in the source, so two decodes of identical byte sequences
return identical results — equal trees field by field on success (equality
of these records is structural), and identical errors on failure. -/
theorem tx_deterministic (r1 r2 s1 s2 : List Nat) (t1 t2 : Transaction)
    (h : r1 = r2) :
    Transaction.deserialize r1 = Transaction.deserialize r2
  ∧ (Transaction.deserialize r1 = Except.ok (t1, s1) →
     Transaction.deserialize r2 = Except.ok (t2, s2) →
     t1.version = t2.version ∧ t1.inputs = t2.inputs ∧
     t1.outputs = t2.outputs ∧ t1.lock_time = t2.lock_time ∧ s1 = s2) := by
  subst h
  refine ⟨rfl, fun h1 h2 => ?_⟩
  rw [h1] at h2
  simp only [Except.ok.injEq, Prod.mk.injEq] at h2
  obtain ⟨ht, hs⟩ := h2
  subst ht
  subst hs
  exact ⟨rfl, rfl, rfl, rfl, rfl⟩

/-- Witness for claim C8, on two copies of the 10-byte empty transaction. -/
theorem tx_deterministic_witness :
    Transaction.deserialize [0, 0, 0, 0, 0, 0, 0, 0, 0, 0] =
      Transaction.deserialize [0, 0, 0, 0, 0, 0, 0, 0, 0, 0]
  ∧ (({ version := 0, inputs := [], outputs := [], lock_time := 0 }
        : Transaction).version =
     ({ version := 0, inputs := [], outputs := [], lock_time := 0 }
        : Transaction).version
   ∧ ({ version := 0, inputs := [], outputs := [], lock_time := 0 }
        : Transaction).inputs =
     ({ version := 0, inputs := [], outputs := [], lock_time := 0 }
        : Transaction).inputs
   ∧ ({ version := 0, inputs := [], outputs := [], lock_time := 0 }
        : Transaction).outputs =
     ({ version := 0, inputs := [], outputs := [], lock_time := 0 }
        : Transaction).outputs
   ∧ ({ version := 0, inputs := [], outputs := [], lock_time := 0 }
        : Transaction).lock_time =
     ({ version := 0, inputs := [], outputs := [], lock_time := 0 }
        : Transaction).lock_time
   ∧ ([] : List Nat) = ([] : List Nat)) :=
  have h := tx_deterministic [0, 0, 0, 0, 0, 0, 0, 0, 0, 0]
    [0, 0, 0, 0, 0, 0, 0, 0, 0, 0] [] []
    { version := 0, inputs := [], outputs := [], lock_time := 0 }
    { version := 0, inputs := [], outputs := [], lock_time := 0 } rfl
  ⟨h.1, h.2 rfl rfl⟩

/-!
## Allocation instrumentation for claim C9

The Rust code pre-sizes three buffers with `Vec::with_capacity`, each driven
by an untrusted declared value: the script body (src/main.rs line 31) and
the input and output lists (lines 131 and 142).  The functions below mirror
the respective deserializers line for line, recording, instead of the
decoded value, the list of capacity arguments the code passes to
`Vec::with_capacity`, in the order the sites are reached; a decode error or
a failed bound check aborts before the site exactly as in the source.
-/

/-- Capacities requested by `Script::deserialize`'s own allocation site. -/
def Script.allocCapacities (r : List Nat) : List Nat :=
  match deserialize_varint r with
  | Except.error _ => []
  | Except.ok (len, _) => if 10000 < len then [] else [len]

/-- Capacities requested by `Transaction::deserialize`'s own two allocation
sites (the input and output lists).  The `Script` allocations inside the
element decoders belong to `Script::deserialize`'s site and are covered by
`Script.allocCapacities`, which quantifies over every reader state. -/
def Transaction.allocCapacities (r : List Nat) : List Nat :=
  match read_uLE 4 r with
  | Except.error _ => []
  | Except.ok (_, r1) =>
    match deserialize_varint r1 with
    | Except.error _ => []
    | Except.ok (ic, r2) =>
      if 1000000 < ic then []
      else ic ::
        (match decodeN TxInput.deserialize ic r2 with
         | Except.error _ => []
         | Except.ok (_, r3) =>
           match deserialize_varint r3 with
           | Except.error _ => []
           | Except.ok (oc, _) => if 1000000 < oc then [] else [oc])

/-- Claim C9: every capacity that reaches `Vec::with_capacity` has already
passed its bound check — at most 10,000 for the script body, at most
1,000,000 for the input and output lists — for every input byte source. -/
theorem alloc_gated (r : List Nat) (c : Nat) :
    (c ∈ Script.allocCapacities r → c ≤ 10000)
  ∧ (c ∈ Transaction.allocCapacities r → c ≤ 1000000) := by
  constructor
  · intro hc
    unfold Script.allocCapacities at hc
    split at hc
    · simp at hc
    · split at hc
      · simp at hc
      · simp at hc
        omega
  · intro hc
    unfold Transaction.allocCapacities at hc
    split at hc
    · simp at hc
    · split at hc
      · simp at hc
      · split at hc
        · simp at hc
        · rw [List.mem_cons] at hc
          rcases hc with hc | hc
          · omega
          · split at hc
            · simp at hc
            · split at hc
              · simp at hc
              · split at hc
                · simp at hc
                · simp at hc
                  omega

/-- Witness for claim C9: a script declaring length 3 allocates capacity 3;
an empty transaction allocates capacities 0 and 0 for its two lists. -/
theorem alloc_gated_witness : 3 ≤ 10000 ∧ 0 ≤ 1000000 :=
  ⟨(alloc_gated [3, 9, 9, 9] 3).1 (by decide),
   (alloc_gated [0, 0, 0, 0, 0, 0] 0).2 (by decide)⟩
